import Mathlib

set_option maxRecDepth 10000

/-!
Shallow embedding of the 8086 disassembler core
(`src/emulator-8086/src/{reg,modrm,opcodes,operation,disassembler}.rs`,
error type from `src/emulator-8086/src/lib.rs`).

Bytes are modelled as `Nat` (callers constrain them below 256 where it
matters).  Rust `Result<_, DissassemblerError>` becomes
`Except DissassemblerError _`.  Rust panics (`panic!`, `todo!`,
`Option::expect`, `Option::unwrap`) abort the process and are not typed
errors; they are modelled by the extra constructor
`DissassemblerError.Panic msg`, kept distinct from the four typed error
variants that the source enum actually declares.
-/

/-- The error enum from `lib.rs` (`DissassemblerError`), plus a `Panic`
constructor modelling Rust panics, which in the source are process aborts
and not values of this enum. Note the source enum has exactly four
variants: there is no `TruncatedInstruction` and no
`UnknownModRmDisambiguation` variant. -/
inductive DissassemblerError where
  | InvalidOpcode (b : Nat)
  | InvalidMode
  | InvalidRegister
  | InvalidEffectiveAddress (b : Nat)
  | Panic (msg : String)
  deriving DecidableEq, Repr

/-- `reg.rs`: the sixteen 8/16-bit registers. -/
inductive Register where
  | AL | CL | DL | BL | AH | CH | DH | BH
  | AX | CX | DX | BX | SP | BP | SI | DI
  deriving DecidableEq, Repr

/-- `reg.rs`: `impl fmt::Display for Register`. -/
def Register.name : Register → String
  | .AL => "al" | .CL => "cl" | .DL => "dl" | .BL => "bl"
  | .AH => "ah" | .CH => "ch" | .DH => "dh" | .BH => "bh"
  | .AX => "ax" | .CX => "cx" | .DX => "dx" | .BX => "bx"
  | .SP => "sp" | .BP => "bp" | .SI => "si" | .DI => "di"

/-- `reg.rs`: `Register::try_from_with_w` — 3 LSB of `value` plus width flag.
The Rust `_ => Err(InvalidRegister)` arm is unreachable (masked value is
always 0..7) but is kept by returning the error when `masked` is ≥ 8,
which never happens. -/
def Register.try_from_with_w (value : Nat) (is_word : Bool) :
    Except DissassemblerError Register :=
  let masked := value &&& 0b111
  if masked = 0b000 then .ok (if is_word then .AX else .AL)
  else if masked = 0b001 then .ok (if is_word then .CX else .CL)
  else if masked = 0b010 then .ok (if is_word then .DX else .DL)
  else if masked = 0b011 then .ok (if is_word then .BX else .BL)
  else if masked = 0b100 then .ok (if is_word then .SP else .AH)
  else if masked = 0b101 then .ok (if is_word then .BP else .CH)
  else if masked = 0b110 then .ok (if is_word then .SI else .DH)
  else if masked = 0b111 then .ok (if is_word then .DI else .BH)
  else .error .InvalidRegister

/-- `reg.rs`: `Register::accumulator_from_w`. -/
def Register.accumulator_from_w (is_word : Bool) : Register :=
  if is_word then .AX else .AL

/-- `modrm.rs`: `DisplacementLen`. -/
inductive DisplacementLen where
  | None | Byte | Word
  deriving DecidableEq, Repr

/-- `modrm.rs`: `DisplacementValue`. -/
inductive DisplacementValue where
  | None
  | Byte (b : Nat)
  | Word (w : Nat)
  deriving DecidableEq, Repr

/-- `modrm.rs`: `impl fmt::Display for DisplacementValue`. -/
def DisplacementValue.render : DisplacementValue → String
  | .None => "0"
  | .Byte b => Nat.repr b
  | .Word w => Nat.repr w

/-- `modrm.rs`: `Mode`. -/
inductive Mode where
  | Memory (disp : DisplacementLen)
  | Register
  deriving DecidableEq, Repr

/-- `modrm.rs`: `impl TryFrom<u8> for Mode` (top two bits). The Rust
catch-all `_ => Err(InvalidMode)` is unreachable but kept. -/
def Mode.try_from (value : Nat) : Except DissassemblerError Mode :=
  let masked := (value &&& 0b11000000) >>> 6
  if masked = 0b00 then .ok (.Memory .None)
  else if masked = 0b01 then .ok (.Memory .Byte)
  else if masked = 0b10 then .ok (.Memory .Word)
  else if masked = 0b11 then .ok .Register
  else .error .InvalidMode

/-- `modrm.rs`: `EffectiveAddress`. -/
inductive EffectiveAddress where
  | DirectAddress
  | SingleReg (r : Register)
  | DoubleReg (a b : Register)
  deriving DecidableEq, Repr

/-- `modrm.rs`: `EffectiveAddress::from_with_mode`. The `Mode::Register`
arm is a Rust `panic!` (modelled as `Panic`); the numeric catch-all is
unreachable but kept. -/
def EffectiveAddress.from_with_mode (value : Nat) (mode : Mode) :
    Except DissassemblerError EffectiveAddress :=
  match mode with
  | .Register =>
      .error (.Panic "cannot have register mode with effective address calculation!")
  | .Memory displacement =>
      let masked := value &&& 0b00000111
      if masked = 0b000 then .ok (.DoubleReg .BX .SI)
      else if masked = 0b001 then .ok (.DoubleReg .BX .DI)
      else if masked = 0b010 then .ok (.DoubleReg .BP .SI)
      else if masked = 0b011 then .ok (.DoubleReg .BP .DI)
      else if masked = 0b100 then .ok (.SingleReg .SI)
      else if masked = 0b101 then .ok (.SingleReg .DI)
      else if masked = 0b110 then
        .ok (if displacement = DisplacementLen.None then .DirectAddress
             else .SingleReg .BP)
      else if masked = 0b111 then .ok (.SingleReg .BX)
      else .error (.InvalidEffectiveAddress value)

/-- `modrm.rs`: `EffectiveAddress::to_string_with_displacement`. -/
def EffectiveAddress.to_string_with_displacement
    (ea : EffectiveAddress) (disp : DisplacementValue) : String :=
  match ea with
  | .DirectAddress => "[" ++ disp.render ++ "]"
  | .SingleReg reg =>
      "[" ++ reg.name ++
        (match disp with
         | .None => ""
         | .Byte v => " + " ++ Nat.repr v
         | .Word v => " + " ++ Nat.repr v) ++ "]"
  | .DoubleReg first second =>
      "[" ++ first.name ++ " + " ++ second.name ++
        (match disp with
         | .None => ""
         | .Byte v => " + " ++ Nat.repr v
         | .Word v => " + " ++ Nat.repr v) ++ "]"

/-- `modrm.rs`: `Rm`. -/
inductive Rm where
  | EffectiveAddressCalculation (ea : EffectiveAddress) (disp : DisplacementLen)
  | Register (r : Register)
  deriving DecidableEq, Repr

/-- `modrm.rs`: `parse_mod_rm` — mode from the top 2 bits; on memory mode,
the effective address, with the `110`/no-displacement case forcing a word
displacement; on register mode, a register from the low 3 bits. -/
def parse_mod_rm (value : Nat) (is_word : Bool) :
    Except DissassemblerError (Mode × Rm) := do
  let mode ← Mode.try_from value
  match mode with
  | .Memory disp => do
      let effective_addr ← EffectiveAddress.from_with_mode value mode
      let disp :=
        if disp = DisplacementLen.None ∧ effective_addr = EffectiveAddress.DirectAddress
        then DisplacementLen.Word else disp
      .ok (mode, .EffectiveAddressCalculation effective_addr disp)
  | .Register => do
      let r ← Register.try_from_with_w value is_word
      .ok (mode, .Register r)

/-- `modrm.rs`: `parse_mod_reg_rm` — additionally extracts the register
field from bits 5-3. -/
def parse_mod_reg_rm (value : Nat) (is_word : Bool) :
    Except DissassemblerError (Mode × Register × Rm) := do
  let register ← Register.try_from_with_w (value >>> 3) is_word
  let (mode, rm) ← parse_mod_rm value is_word
  .ok (mode, register, rm)

/-- `opcodes.rs`: `OpcodeMnemonic`. -/
inductive OpcodeMnemonic where
  | Mov | Add | Sub | Cmp
  | Je | Jl | Jle | Jb | Jbe | Jp | Jo | Js
  | Jne | Jnl | Jg | Jnb | Jnbe | Jnp | Jno | Jns
  | Loop | Loopz | Loopnz | Jcxz
  | NeedsNextByte
  deriving DecidableEq, Repr

/-- `opcodes.rs`: `impl fmt::Display for OpcodeMnemonic`. The
`NeedsNextByte` arm is `todo!()`, i.e. a panic, modelled as `none`. -/
def OpcodeMnemonic.render : OpcodeMnemonic → Option String
  | .Mov => some "mov"
  | .Add => some "add"
  | .Sub => some "sub"
  | .Cmp => some "cmp"
  | .Je => some "je"
  | .Jl => some "jl"
  | .Jle => some "jle"
  | .Jb => some "jb"
  | .Jbe => some "jbe"
  | .Jp => some "jp"
  | .Jo => some "jo"
  | .Js => some "js"
  | .Jne => some "jne"
  | .Jnl => some "jnl"
  | .Jg => some "jg"
  | .Jnb => some "jnb"
  | .Jnbe => some "jnbe"
  | .Jnp => some "jnp"
  | .Jno => some "jno"
  | .Jns => some "jns"
  | .Loop => some "loop"
  | .Loopz => some "loopz"
  | .Loopnz => some "loopnz"
  | .Jcxz => some "jcxz"
  | .NeedsNextByte => none

/-- `opcodes.rs`: `OpcodeMnemonic::with_mod_rm` — resolves the shared
immediate-to-register/memory family from bits 5-3 of the ModRM byte.
Every unmatched combination in the source is `panic!("unsupported vals ...")`,
modelled as `Panic "unsupported vals"`. -/
def OpcodeMnemonic.with_mod_rm (opcode_val mod_rm : Nat) :
    Except DissassemblerError OpcodeMnemonic :=
  let masked := mod_rm &&& 0b00111000
  let shifted := masked >>> 3
  if shifted = 0b000 then
    if 0b11000110 ≤ opcode_val ∧ opcode_val ≤ 0b11000111 then .ok .Mov
    else if 0b10000000 ≤ opcode_val ∧ opcode_val ≤ 0b10000011 then .ok .Add
    else .error (.Panic "unsupported vals")
  else if shifted = 0b101 then
    if 0b10000000 ≤ opcode_val ∧ opcode_val ≤ 0b10000011 then .ok .Sub
    else .error (.Panic "unsupported vals")
  else if shifted = 0b111 then
    if 0b10000000 ≤ opcode_val ∧ opcode_val ≤ 0b10000011 then .ok .Cmp
    else .error (.Panic "unsupported vals")
  else .error (.Panic "unsupported vals")

/-- `opcodes.rs`: `NextFieldType`. -/
inductive NextFieldType where
  | ModRegRm | ModOpcodeContRm | Data | Addr | IpInc8 | None
  deriving DecidableEq, Repr

/-- `opcodes.rs`: `OpcodeContext`. -/
structure OpcodeContext where
  first_byte_raw : Nat
  mnemonic : OpcodeMnemonic
  next_field : NextFieldType
  d : Option Bool
  w : Option Bool
  s : Option Bool
  reg : Option Register
  has_data : Bool
  deriving DecidableEq, Repr

/-- `macros.rs`: the `jump_ipinc8_op!` macro body (`has_data` is absent in
the macro text; it is the natural `false` since jumps carry no data). -/
def jump_ipinc8_op (m : OpcodeMnemonic) (value : Nat) : OpcodeContext :=
  { first_byte_raw := value, mnemonic := m, next_field := .IpInc8,
    d := none, w := none, s := none, reg := none, has_data := false }

/-- `opcodes.rs`: `impl TryFrom<u8> for OpcodeContext` — the opcode
classifier. Arms appear in source order; the ranges are pairwise
disjoint, so an if-chain is equivalent to the Rust `match`. -/
def OpcodeContext.try_from (value : Nat) :
    Except DissassemblerError OpcodeContext :=
  -- mov register/memory to/from register
  if 0b10001000 ≤ value ∧ value ≤ 0b10001011 then
    .ok { first_byte_raw := value, mnemonic := .Mov, next_field := .ModRegRm,
          d := some ((value &&& 0b10) ≠ 0), w := some ((value &&& 0b1) ≠ 0),
          s := none, reg := none, has_data := false }
  -- mov immediate to register/memory  (source carries a `TODO: fix` on next_field)
  else if 0b11000110 ≤ value ∧ value ≤ 0b11000111 then
    .ok { first_byte_raw := value, mnemonic := .Mov, next_field := .ModRegRm,
          d := none, w := some ((value &&& 0b1) ≠ 0),
          s := none, reg := none, has_data := true }
  -- mov immediate to register
  else if 0b10110000 ≤ value ∧ value ≤ 0b10111111 then
    let w := (value &&& 0b00001000) ≠ 0
    match Register.try_from_with_w value w with
    | .error e => .error e
    | .ok r =>
      .ok { first_byte_raw := value, mnemonic := .Mov, next_field := .Data,
            d := none, w := some w, s := none, reg := some r, has_data := true }
  -- add reg/memory with register to either
  else if value ≤ 0b00000011 then
    .ok { first_byte_raw := value, mnemonic := .Add, next_field := .ModRegRm,
          d := some ((value &&& 0b10) ≠ 0), w := some ((value &&& 0b1) ≠ 0),
          s := none, reg := none, has_data := false }
  -- add, adc, cmp immediate to register/memory
  else if 0b10000000 ≤ value ∧ value ≤ 0b10000011 then
    .ok { first_byte_raw := value, mnemonic := .NeedsNextByte,
          next_field := .ModOpcodeContRm,
          d := none, w := some ((value &&& 0b1) ≠ 0),
          s := some ((value &&& 0b10) ≠ 0), reg := none, has_data := true }
  -- add, immediate to accumulator
  else if 0b00000100 ≤ value ∧ value ≤ 0b00000101 then
    let w_val := (value &&& 0b1) ≠ 0
    .ok { first_byte_raw := value, mnemonic := .Add, next_field := .Data,
          d := none, w := some w_val, s := none,
          reg := some (Register.accumulator_from_w w_val), has_data := true }
  -- sub, reg/memory and register to either
  else if 0b00101000 ≤ value ∧ value ≤ 0b00101011 then
    .ok { first_byte_raw := value, mnemonic := .Sub, next_field := .ModRegRm,
          d := some ((value &&& 0b10) ≠ 0), w := some ((value &&& 0b1) ≠ 0),
          s := none, reg := none, has_data := false }
  -- sub, immediate from accumulator
  else if 0b00101100 ≤ value ∧ value ≤ 0b00101101 then
    let w_val := (value &&& 0b1) ≠ 0
    .ok { first_byte_raw := value, mnemonic := .Sub, next_field := .Data,
          d := none, w := some w_val, s := none,
          reg := some (Register.accumulator_from_w w_val), has_data := true }
  -- cmp, register/memory and register
  else if 0b00111000 ≤ value ∧ value ≤ 0b00111011 then
    .ok { first_byte_raw := value, mnemonic := .Cmp, next_field := .ModRegRm,
          d := some ((value &&& 0b10) ≠ 0), w := some ((value &&& 0b1) ≠ 0),
          s := none, reg := none, has_data := false }
  -- cmp, immediate with accumulator
  else if 0b00111100 ≤ value ∧ value ≤ 0b00111101 then
    let w_val := (value &&& 0b1) ≠ 0
    .ok { first_byte_raw := value, mnemonic := .Cmp, next_field := .Data,
          d := none, w := some w_val, s := none,
          reg := some (Register.accumulator_from_w w_val), has_data := true }
  else if value = 0b01110100 then .ok (jump_ipinc8_op .Je value)
  else if value = 0b01111100 then .ok (jump_ipinc8_op .Jl value)
  else if value = 0b01111110 then .ok (jump_ipinc8_op .Jle value)
  else if value = 0b01110010 then .ok (jump_ipinc8_op .Jb value)
  else if value = 0b01110110 then .ok (jump_ipinc8_op .Jbe value)
  else if value = 0b01111010 then .ok (jump_ipinc8_op .Jp value)
  else if value = 0b01110000 then .ok (jump_ipinc8_op .Jo value)
  else if value = 0b01111000 then .ok (jump_ipinc8_op .Js value)
  -- jne/jnz
  else if value = 0b01110101 then .ok (jump_ipinc8_op .Jne value)
  -- jnl/jge: the source maps this byte to `OpcodeMnemonic::Jne` as well
  else if value = 0b01111101 then .ok (jump_ipinc8_op .Jne value)
  else if value = 0b01111111 then .ok (jump_ipinc8_op .Jg value)
  else if value = 0b01110011 then .ok (jump_ipinc8_op .Jnb value)
  else if value = 0b01110111 then .ok (jump_ipinc8_op .Jnbe value)
  else if value = 0b01111011 then .ok (jump_ipinc8_op .Jnp value)
  else if value = 0b01110001 then .ok (jump_ipinc8_op .Jno value)
  else if value = 0b01111001 then .ok (jump_ipinc8_op .Jns value)
  else if value = 0b11100010 then .ok (jump_ipinc8_op .Loop value)
  else if value = 0b11100001 then .ok (jump_ipinc8_op .Loopz value)
  else if value = 0b11100000 then .ok (jump_ipinc8_op .Loopnz value)
  else if value = 0b11100011 then .ok (jump_ipinc8_op .Jcxz value)
  else .error (.InvalidOpcode value)

/-- `opcodes.rs`: `OpcodeContext::with_next_byte` — replaces the mnemonic
using the disambiguation table (panics propagate as `Panic`). -/
def OpcodeContext.with_next_byte (ctx : OpcodeContext) (next_byte : Nat) :
    Except DissassemblerError OpcodeContext :=
  match OpcodeMnemonic.with_mod_rm ctx.first_byte_raw next_byte with
  | .error e => .error e
  | .ok m => .ok { ctx with mnemonic := m }

/-- `operation.rs`: `Operand`. The Rust `SignedJump(i8)` is modelled with
an `Int` in the i8 range. -/
inductive Operand where
  | EffectiveAddress (ea : EffectiveAddress) (disp : DisplacementValue)
  | Register (r : Register)
  | DataByte (b : Nat)
  | DataWord (w : Nat)
  | SignedJump (j : Int)
  deriving DecidableEq, Repr

/-- `operation.rs`: `impl fmt::Display for Operand`. -/
def Operand.render : Operand → String
  | .EffectiveAddress ea disp => ea.to_string_with_displacement disp
  | .Register r => r.name
  | .DataByte b => Nat.repr b
  | .DataWord w => Nat.repr w
  | .SignedJump j => Int.repr j

/-- `operation.rs`: `Operation`. -/
structure Operation where
  opcode : OpcodeMnemonic
  dest : Operand
  src : Option Operand
  deriving DecidableEq, Repr

/-- `operation.rs`: `Operation::new`. -/
def Operation.new (opcode : OpcodeMnemonic) (dest : Operand)
    (src : Option Operand) : Operation :=
  { opcode := opcode, dest := dest, src := src }

/-- `operation.rs`: `impl fmt::Display for Operation`; `none` when the
mnemonic rendering would panic (`NeedsNextByte`). -/
def Operation.render (op : Operation) : Option String :=
  match op.opcode.render with
  | none => none
  | some mn =>
      some (mn ++ " " ++ op.dest.render ++
        (match op.src with
         | none => ""
         | some src => ", " ++ src.render))

/-- The value a byte read as Rust `i8` denotes (two's complement). -/
def i8OfByte (b : Nat) : Int :=
  if b < 128 then (b : Int) else (b : Int) - 256

/-- `disassembler.rs`: `Disassembler` — a `Cursor<Vec<u8>>` is a byte
list plus a position. -/
structure Disassembler where
  instructions_bin : List Nat
  pos : Nat
  deriving DecidableEq, Repr

/-- `disassembler.rs`: `Disassembler::new`. -/
def Disassembler.new (instructions : List Nat) : Disassembler :=
  { instructions_bin := instructions, pos := 0 }

/-- `disassembler.rs`: `read_next` — next byte, or `none` at
end-of-stream (the in-memory cursor cannot produce an I/O error). -/
def Disassembler.read_next (d : Disassembler) : Option Nat × Disassembler :=
  match d.instructions_bin.get? d.pos with
  | none => (none, d)
  | some b => (some b, { d with pos := d.pos + 1 })

/-- `disassembler.rs`: `read_expecting` — `read_next()?.expect("Failed to
read next byte!")`: at end-of-stream the source panics (`Panic`), it does
not return a typed error. -/
def Disassembler.read_expecting (d : Disassembler) :
    Except DissassemblerError (Nat × Disassembler) :=
  match d.read_next with
  | (none, _) => .error (.Panic "Failed to read next byte!")
  | (some b, d1) => .ok (b, d1)

/-- `disassembler.rs`: `read_word` — two bytes, little-endian. -/
def Disassembler.read_word (d : Disassembler) :
    Except DissassemblerError (Nat × Disassembler) :=
  match d.read_expecting with
  | .error e => .error e
  | .ok (low, d1) =>
      match d1.read_expecting with
      | .error e => .error e
      | .ok (high, d2) => .ok (low + (high <<< 8), d2)

/-- `disassembler.rs`: `read_displacement`. -/
def Disassembler.read_displacement (d : Disassembler) (disp : DisplacementLen) :
    Except DissassemblerError (DisplacementValue × Disassembler) :=
  match disp with
  | .None => .ok (.None, d)
  | .Byte =>
      match d.read_expecting with
      | .error e => .error e
      | .ok (b, d1) => .ok (.Byte b, d1)
  | .Word =>
      match d.read_word with
      | .error e => .error e
      | .ok (w, d1) => .ok (.Word w, d1)

/-- `disassembler.rs`: `peek` — reads a byte then seeks back one, leaving
the position where it was. -/
def Disassembler.peek (d : Disassembler) :
    Except DissassemblerError (Nat × Disassembler) :=
  match d.read_expecting with
  | .error e => .error e
  | .ok (b, d1) => .ok (b, { d1 with pos := d1.pos - 1 })

/-- `disassembler.rs`: `rm_to_operand` — resolves an `Rm`, reading the
displacement bytes when it is an effective-address calculation. -/
def Disassembler.rm_to_operand (d : Disassembler) (rm : Rm) :
    Except DissassemblerError (Operand × Disassembler) :=
  match rm with
  | .EffectiveAddressCalculation effective_address displacement_len =>
      match d.read_displacement displacement_len with
      | .error e => .error e
      | .ok (disp_val, d1) =>
          .ok (.EffectiveAddress effective_address disp_val, d1)
  | .Register register => .ok (.Register register, d)

/-- `disassembler.rs`: `decode_next_op` — classify the opcode byte,
disambiguate by peek when the mnemonic is `NeedsNextByte`, then dispatch
on the auxiliary-field layout.  `Option::expect` calls are modelled as
`Panic` with the source's message; the catch-all `_ => todo!()` over
`Addr`/`None` layouts is `Panic "not yet implemented"`. -/
def Disassembler.decode_next_op (d : Disassembler) :
    Except DissassemblerError (Option Operation × Disassembler) :=
  match d.read_next with
  | (none, d1) => .ok (none, d1)
  | (some opcode, d1) =>
    match OpcodeContext.try_from opcode with
    | .error e => .error e
    | .ok ctx0 =>
      match ((if ctx0.mnemonic = .NeedsNextByte then
               match d1.peek with
               | .error e => .error e
               | .ok (next, d2) =>
                   match ctx0.with_next_byte next with
                   | .error e => .error e
                   | .ok ctx => .ok (ctx, d2)
             else .ok (ctx0, d1)) :
             Except DissassemblerError (OpcodeContext × Disassembler)) with
      | .error e => .error e
      | .ok (ctx, d2) =>
        match ctx.next_field with
        | .ModRegRm =>
          match d2.read_expecting with
          | .error e => .error e
          | .ok (mod_reg_rm, d3) =>
            match ctx.w with
            | none => .error (.Panic "W bit not found!")
            | some w =>
              match parse_mod_reg_rm mod_reg_rm w with
              | .error e => .error e
              | .ok (_mode, reg, rm) =>
                match d3.rm_to_operand rm with
                | .error e => .error e
                | .ok (rmOperand, d4) =>
                  match ctx.d with
                  | none => .error (.Panic "Need direction set!")
                  | some dbit =>
                    -- dest starts as the R/M operand, src as the register;
                    -- a set direction bit swaps them
                    let pair := if dbit then (Operand.Register reg, rmOperand)
                                else (rmOperand, Operand.Register reg)
                    .ok (some (Operation.new ctx.mnemonic pair.1 (some pair.2)), d4)
        | .ModOpcodeContRm =>
          match d2.read_expecting with
          | .error e => .error e
          | .ok (mod_op_rm, d3) =>
            match ctx.w with
            | none => .error (.Panic "W bit not found!")
            | some w =>
              match parse_mod_rm mod_op_rm w with
              | .error e => .error e
              | .ok (_mode, rm) =>
                match d3.rm_to_operand rm with
                | .error e => .error e
                | .ok (dest, d4) =>
                  -- immediate size: with an s field, 2 bytes iff !s && w;
                  -- without one, 2 bytes iff w
                  match ((match ctx.s with
                         | some s =>
                           if !s && w then
                             match d4.read_word with
                             | .error e => .error e
                             | .ok (v, d5) => .ok (Operand.DataWord v, d5)
                           else
                             match d4.read_expecting with
                             | .error e => .error e
                             | .ok (v, d5) => .ok (Operand.DataByte v, d5)
                         | none =>
                           if w then
                             match d4.read_word with
                             | .error e => .error e
                             | .ok (v, d5) => .ok (Operand.DataWord v, d5)
                           else
                             match d4.read_expecting with
                             | .error e => .error e
                             | .ok (v, d5) => .ok (Operand.DataByte v, d5)) :
                          Except DissassemblerError (Operand × Disassembler)) with
                  | .error e => .error e
                  | .ok (src, d5) =>
                    .ok (some (Operation.new ctx.mnemonic dest (some src)), d5)
        | .Data =>
          match ctx.reg with
          | none => .error (.Panic "Expected reg!")
          | some reg =>
            match ctx.w with
            | none => .error (.Panic "Expected w!")
            | some w =>
              match ((if w then
                       match d2.read_word with
                       | .error e => .error e
                       | .ok (v, d3) => .ok (Operand.DataWord v, d3)
                     else
                       match d2.read_expecting with
                       | .error e => .error e
                       | .ok (v, d3) => .ok (Operand.DataByte v, d3)) :
                      Except DissassemblerError (Operand × Disassembler)) with
              | .error e => .error e
              | .ok (data, d3) =>
                .ok (some (Operation.new ctx.mnemonic (.Register reg) (some data)), d3)
        | .IpInc8 =>
          match d2.read_expecting with
          | .error e => .error e
          | .ok (b, d3) =>
            .ok (some (Operation.new ctx.mnemonic (.SignedJump (i8OfByte b)) none), d3)
        | _ => .error (.Panic "not yet implemented")

/-- The loop body of `Disassembler::decode`, with explicit fuel. Each
emitted instruction consumes at least its opcode byte, so fuel equal to
the buffer length plus one always suffices; exhaustion (unreachable for
the fuel chosen in `Disassembler.decode`) is a `Panic`. -/
def Disassembler.decode_loop :
    Nat → Disassembler → String → Except DissassemblerError String
  | 0, _, _ => .error (.Panic "decode loop fuel exhausted")
  | fuel + 1, d, acc =>
    match d.decode_next_op with
    | .error e => .error e
    | .ok (none, _) => .ok acc
    | .ok (some statement, d1) =>
      match statement.render with
      | none => .error (.Panic "not yet implemented")
      | some s => Disassembler.decode_loop fuel d1 (acc ++ "\n" ++ s)

/-- `disassembler.rs`: `decode` — the main loop, starting from the
`"bits 16\n"` header and appending one line per decoded operation. -/
def Disassembler.decode (d : Disassembler) : Except DissassemblerError String :=
  Disassembler.decode_loop (d.instructions_bin.length + 1) d "bits 16\n"

/-- Decidable equality of `Except` results, used to settle concrete runs
of the decoder by `decide`. -/
instance {ε α : Type} [DecidableEq ε] [DecidableEq α] : DecidableEq (Except ε α) := fun x y =>
  match x, y with
  | .ok a, .ok b =>
      if h : a = b then isTrue (by rw [h])
      else isFalse (by intro he; cases he; exact h rfl)
  | .error a, .error b =>
      if h : a = b then isTrue (by rw [h])
      else isFalse (by intro he; cases he; exact h rfl)
  | .ok _, .error _ => isFalse (by intro h; cases h)
  | .error _, .ok _ => isFalse (by intro h; cases h)

/-! ## Shared helper lemmas about the byte cursor -/

theorem read_expecting_ok_state (d : Disassembler) (b : Nat) (d1 : Disassembler)
    (h : d.read_expecting = .ok (b, d1)) :
    d1.instructions_bin = d.instructions_bin ∧ d1.pos = d.pos + 1 := by
  unfold Disassembler.read_expecting Disassembler.read_next at h
  cases hg : d.instructions_bin.get? d.pos with
  | none => rw [hg] at h; simp at h
  | some x =>
      rw [hg] at h
      simp only [Except.ok.injEq, Prod.mk.injEq] at h
      obtain ⟨_, h2⟩ := h
      rw [← h2]
      exact ⟨rfl, rfl⟩

theorem read_word_ok_state (d : Disassembler) (v : Nat) (d1 : Disassembler)
    (h : d.read_word = .ok (v, d1)) :
    d1.instructions_bin = d.instructions_bin ∧ d1.pos = d.pos + 2 := by
  unfold Disassembler.read_word at h
  cases h1 : d.read_expecting with
  | error e => rw [h1] at h; simp at h
  | ok p =>
      obtain ⟨lo, da⟩ := p
      rw [h1] at h
      dsimp only at h
      cases h2 : da.read_expecting with
      | error e => rw [h2] at h; simp at h
      | ok q =>
          obtain ⟨hi, db⟩ := q
          rw [h2] at h
          simp only [Except.ok.injEq, Prod.mk.injEq] at h
          obtain ⟨_, hdb⟩ := h
          obtain ⟨ha1, ha2⟩ := read_expecting_ok_state d lo da h1
          obtain ⟨hb1, hb2⟩ := read_expecting_ok_state da hi db h2
          subst hdb
          constructor
          · rw [hb1, ha1]
          · rw [hb2, ha2]

theorem read_displacement_ok_state (d : Disassembler) (len : DisplacementLen)
    (v : DisplacementValue) (d1 : Disassembler)
    (h : d.read_displacement len = .ok (v, d1)) :
    d1.instructions_bin = d.instructions_bin ∧ d.pos ≤ d1.pos := by
  unfold Disassembler.read_displacement at h
  cases len with
  | None =>
      simp only [Except.ok.injEq, Prod.mk.injEq] at h
      obtain ⟨_, h2⟩ := h
      rw [← h2]
      exact ⟨rfl, Nat.le_refl _⟩
  | Byte =>
      cases h1 : d.read_expecting with
      | error e => rw [h1] at h; simp at h
      | ok p =>
          obtain ⟨b, da⟩ := p
          rw [h1] at h
          simp only [Except.ok.injEq, Prod.mk.injEq] at h
          obtain ⟨_, h2⟩ := h
          obtain ⟨ha1, ha2⟩ := read_expecting_ok_state d b da h1
          subst h2
          exact ⟨ha1, by omega⟩
  | Word =>
      cases h1 : d.read_word with
      | error e => rw [h1] at h; simp at h
      | ok p =>
          obtain ⟨w, da⟩ := p
          rw [h1] at h
          simp only [Except.ok.injEq, Prod.mk.injEq] at h
          obtain ⟨_, h2⟩ := h
          obtain ⟨ha1, ha2⟩ := read_word_ok_state d w da h1
          subst h2
          exact ⟨ha1, by omega⟩

/-! ## Claim theorems -/

/-- C1: code bug. The classifier gives bytes 0b11000110 and 0b11000111
(mov immediate to register/memory) the `ModRegRm` auxiliary-field layout
while leaving the direction field `none` (the source marks this arm
`TODO: fix`), so the main loop's `d().expect("Need direction set!")`
panics on such instructions — the invariant that a `ModRegRm` descriptor
always carries both bits is violated by these two bytes. -/
theorem mov_imm_rm_missing_direction_bit :
    (OpcodeContext.try_from 0b11000110).map
        (fun c => (c.next_field, c.d, c.w)) =
      .ok (.ModRegRm, none, some false) ∧
    (OpcodeContext.try_from 0b11000111).map
        (fun c => (c.next_field, c.d, c.w)) =
      .ok (.ModRegRm, none, some true) ∧
    (Disassembler.new [0b11000110, 0b11011001]).decode_next_op =
      .error (.Panic "Need direction set!") := by
  decide

/-- C2 counterexample: a truncated instruction does not produce a typed
`TruncatedInstruction` failure (no such variant exists in the source's
error enum); `read_expecting` panics with "Failed to read next byte!",
and the whole pass — including the already-decoded `mov cx, bx` line —
is replaced by that failure. -/
theorem truncation_panics_not_typed_error :
    (Disassembler.new [0b10001000]).decode =
      .error (.Panic "Failed to read next byte!") ∧
    (Disassembler.new [0b10001001, 0b11011001, 0b10001000]).decode =
      .error (.Panic "Failed to read next byte!") := by
  decide

/-- C2 (amended): reading past end-of-stream mid-instruction always
aborts via the `read_expecting` panic ("Failed to read next byte!"),
never a typed error; the decode pass that hits it yields only that
failure, with no output line for the truncated instruction and the
previously accumulated lines discarded. -/
theorem truncation_read_expecting_panics :
    (∀ d : Disassembler, d.instructions_bin.length ≤ d.pos →
       d.read_expecting = .error (.Panic "Failed to read next byte!")) ∧
    (Disassembler.new [0b10001001, 0b11011001, 0b10001000]).decode =
      .error (.Panic "Failed to read next byte!") := by
  constructor
  · intro d h
    unfold Disassembler.read_expecting Disassembler.read_next
    rw [List.get?_eq_none.mpr h]
  · decide

/-- Witness for C2's amended theorem at the empty buffer. -/
theorem truncation_read_expecting_panics_witness :
    (Disassembler.new []).read_expecting =
      .error (.Panic "Failed to read next byte!") :=
  truncation_read_expecting_panics.1 (Disassembler.new []) (Nat.le_refl 0)

/-- C3 counterexample: byte 0b11000110 is in the claim's
"immediate-to-register/memory family" but classifies directly to the
`mov` mnemonic, not to the `NeedsNextByte` marker; and an unknown
(first byte, sub-field) combination — 0b10000000 with sub-field 0b001 —
makes the decode pass panic ("unsupported vals"), not fail with a typed
error. -/
theorem imm_family_classification_counterexample :
    (OpcodeContext.try_from 0b11000110).map OpcodeContext.mnemonic =
      .ok .Mov ∧
    (Disassembler.new [0b10000000, 0b00001000]).decode_next_op =
      .error (.Panic "unsupported vals") := by
  decide

/-- C4: for every byte matching `(b &&& 0b11111100) == 0b10001000`, the
classifier yields the mov mnemonic with the `ModRegRm` layout, direction
bit `(b >>> 1) &&& 1` and word bit `b &&& 1`. -/
theorem mov_regmem_classification :
    ∀ b < 256, b &&& 0b11111100 = 0b10001000 →
      (OpcodeContext.try_from b).map OpcodeContext.mnemonic = .ok .Mov ∧
      (OpcodeContext.try_from b).map OpcodeContext.next_field = .ok .ModRegRm ∧
      (OpcodeContext.try_from b).map OpcodeContext.d =
        .ok (some (((b >>> 1) &&& 1) == 1)) ∧
      (OpcodeContext.try_from b).map OpcodeContext.w =
        .ok (some ((b &&& 1) == 1)) := by
  decide

/-- Witness for C4 at byte 0b10001001. -/
theorem mov_regmem_classification_witness :
    (OpcodeContext.try_from 0b10001001).map OpcodeContext.mnemonic = .ok .Mov ∧
    (OpcodeContext.try_from 0b10001001).map OpcodeContext.next_field = .ok .ModRegRm ∧
    (OpcodeContext.try_from 0b10001001).map OpcodeContext.d =
      .ok (some (((0b10001001 >>> 1) &&& 1) == 1)) ∧
    (OpcodeContext.try_from 0b10001001).map OpcodeContext.w =
      .ok (some ((0b10001001 &&& 1) == 1)) :=
  mov_regmem_classification 0b10001001 (by decide) (by decide)

/-- C8: bytes 0b01110101 (jne/jnz) and 0b01111101 (jnl/jge) both
classify to the `Jne` mnemonic, which renders as "jne", and no byte at
all classifies to `Jnl`. -/
theorem duplicate_jne_mapping :
    (OpcodeContext.try_from 0b01110101).map OpcodeContext.mnemonic = .ok .Jne ∧
    (OpcodeContext.try_from 0b01111101).map OpcodeContext.mnemonic = .ok .Jne ∧
    OpcodeMnemonic.render .Jne = some "jne" ∧
    ((List.range 256).all fun b =>
      decide ((OpcodeContext.try_from b).map OpcodeContext.mnemonic ≠
        .ok OpcodeMnemonic.Jnl)) = true := by
  decide

/-- C9: a peek on a cursor with at least one byte remaining returns that
byte with the cursor state unchanged; `read_next` never moves the
position backwards, and the successful reads move it forward by exactly
one byte (`read_expecting`), two bytes (`read_word`), or the
displacement length (`read_displacement`). -/
theorem peek_preserves_position :
    (∀ d : Disassembler, d.pos < d.instructions_bin.length →
       d.peek = .ok (d.instructions_bin.getD d.pos 0, d)) ∧
    (∀ d : Disassembler, d.pos ≤ (d.read_next).2.pos) ∧
    (∀ d b d1, Disassembler.read_expecting d = .ok (b, d1) →
       d1.pos = d.pos + 1) ∧
    (∀ d v d1, Disassembler.read_word d = .ok (v, d1) →
       d1.pos = d.pos + 2) ∧
    (∀ d len v d1, Disassembler.read_displacement d len = .ok (v, d1) →
       d.pos ≤ d1.pos) := by
  refine ⟨?_, ?_, ?_, ?_, ?_⟩
  · intro d h
    obtain ⟨data, pos⟩ := d
    simp only at h
    have hg : data.get? pos = some (data.get ⟨pos, h⟩) := List.get?_eq_get h
    unfold Disassembler.peek Disassembler.read_expecting Disassembler.read_next
    simp only [hg]
    have hgd : data.getD pos 0 = data.get ⟨pos, h⟩ := by
      rw [List.getD_eq_get?, hg]
      rfl
    rw [hgd, Nat.add_sub_cancel]
  · intro d
    unfold Disassembler.read_next
    cases hg : d.instructions_bin.get? d.pos with
    | none => exact Nat.le_refl _
    | some b => exact Nat.le_succ _
  · intro d b d1 h
    exact (read_expecting_ok_state d b d1 h).2
  · intro d v d1 h
    exact (read_word_ok_state d v d1 h).2
  · intro d len v d1 h
    exact (read_displacement_ok_state d len v d1 h).2

/-- Witness for C9 at a one-byte buffer and its reads. -/
theorem peek_preserves_position_witness :
    Disassembler.peek { instructions_bin := [7], pos := 0 } =
      .ok (7, { instructions_bin := [7], pos := 0 }) ∧
    Disassembler.pos { instructions_bin := [7], pos := 1 } =
      Disassembler.pos { instructions_bin := [7], pos := 0 } + 1 :=
  ⟨peek_preserves_position.1 ⟨[7], 0⟩ (by decide),
   peek_preserves_position.2.2.1 ⟨[7], 0⟩ 7 ⟨[7], 1⟩ (by decide)⟩

/-- C10: every opcode byte the classifier accepts gets one of the
`ModRegRm`, `ModOpcodeContRm`, `Data`, `IpInc8` layouts — never `Addr`
or `None` — and mnemonic disambiguation never changes the layout, so the
main loop's catch-all `todo!()` arm is unreachable for a successfully
classified opcode. -/
theorem classified_layouts_no_addr_none :
    (((List.range 256).all fun b =>
        match OpcodeContext.try_from b with
        | .ok ctx => decide (ctx.next_field ≠ .Addr ∧ ctx.next_field ≠ .None ∧
            (ctx.next_field = .ModRegRm ∨ ctx.next_field = .ModOpcodeContRm ∨
             ctx.next_field = .Data ∨ ctx.next_field = .IpInc8))
        | .error _ => true) = true) ∧
    (∀ ctx n ctx2, OpcodeContext.with_next_byte ctx n = .ok ctx2 →
       ctx2.next_field = ctx.next_field) := by
  constructor
  · decide
  · intro ctx n ctx2 h
    unfold OpcodeContext.with_next_byte at h
    cases hm : OpcodeMnemonic.with_mod_rm ctx.first_byte_raw n with
    | error e => rw [hm] at h; simp at h
    | ok m =>
        rw [hm] at h
        simp only [Except.ok.injEq] at h
        rw [← h]

/-- Witness for C10's disambiguation part at first byte 0b10000000 and
ModRM byte 0. -/
theorem classified_layouts_no_addr_none_witness :
    OpcodeContext.next_field
      { first_byte_raw := 0b10000000, mnemonic := OpcodeMnemonic.Add,
        next_field := NextFieldType.ModOpcodeContRm, d := none,
        w := some false, s := some true, reg := none, has_data := true } =
    OpcodeContext.next_field
      { first_byte_raw := 0b10000000, mnemonic := OpcodeMnemonic.NeedsNextByte,
        next_field := NextFieldType.ModOpcodeContRm, d := none,
        w := some false, s := some true, reg := none, has_data := true } :=
  classified_layouts_no_addr_none.2 _ 0 _ (by decide)

/-- C3 (amended): only the 0b10000000..0b10000011 family classifies to
the `NeedsNextByte` marker (0b11000110..0b11000111 classify directly to
mov, although they do appear in the disambiguation table's sub-field-000
row); the disambiguation table maps sub-field 0b000 to add or mov by
first-byte range, 0b101 to sub and 0b111 to cmp, and every other
(first byte, sub-field) combination panics with "unsupported vals"
rather than failing with a typed error. -/
theorem imm_family_disambiguation_table :
    ∀ b m : Nat,
      ((0b10000000 ≤ b ∧ b ≤ 0b10000011) →
        (OpcodeContext.try_from b).map OpcodeContext.mnemonic =
          .ok .NeedsNextByte) ∧
      ((0b11000110 ≤ b ∧ b ≤ 0b11000111) →
        (OpcodeContext.try_from b).map OpcodeContext.mnemonic = .ok .Mov) ∧
      (OpcodeMnemonic.with_mod_rm b m =
          (if (0b11000110 ≤ b ∧ b ≤ 0b11000111) ∧ (m &&& 0b00111000) >>> 3 = 0b000
           then .ok .Mov
           else if (0b10000000 ≤ b ∧ b ≤ 0b10000011) ∧ (m &&& 0b00111000) >>> 3 = 0b000
           then .ok .Add
           else if (0b10000000 ≤ b ∧ b ≤ 0b10000011) ∧ (m &&& 0b00111000) >>> 3 = 0b101
           then .ok .Sub
           else if (0b10000000 ≤ b ∧ b ≤ 0b10000011) ∧ (m &&& 0b00111000) >>> 3 = 0b111
           then .ok .Cmp
           else .error (.Panic "unsupported vals"))) := by
  intro b m
  refine ⟨?_, ?_, ?_⟩
  · rintro ⟨h1, h2⟩
    interval_cases b <;> decide
  · rintro ⟨h1, h2⟩
    interval_cases b <;> decide
  · unfold OpcodeMnemonic.with_mod_rm
    dsimp only
    generalize (m &&& 56) >>> 3 = t
    split_ifs <;> first | rfl | omega

/-- Witness for C3's amended theorem at first byte 0b10000000 and ModRM
byte 0b00101000 (sub-field 0b101, i.e. sub). -/
theorem imm_family_disambiguation_table_witness :
    (OpcodeContext.try_from 0b10000000).map OpcodeContext.mnemonic =
      .ok .NeedsNextByte ∧
    OpcodeMnemonic.with_mod_rm 0b10000000 0b00101000 = .ok .Sub := by
  refine ⟨(imm_family_disambiguation_table 128 40).1 (by decide), ?_⟩
  rw [(imm_family_disambiguation_table 128 40).2.2]
  decide

/-- C6: mode bits 00 with R/M bits 110 resolve to `DirectAddress` with the
displacement length forced to `Word` (two bytes read, not zero), rendered
as the bracketed value with no base register; every other R/M pattern
maps to a base-register combination independent of the displacement
length. -/
theorem direct_address_forces_word_displacement :
    (∀ m < 256, ((m &&& 0b11000000) >>> 6 = 0 ∧ m &&& 0b111 = 0b110) →
       parse_mod_rm m false =
         .ok (.Memory .None,
              .EffectiveAddressCalculation .DirectAddress .Word) ∧
       parse_mod_rm m true =
         .ok (.Memory .None,
              .EffectiveAddressCalculation .DirectAddress .Word)) ∧
    (∀ (d : Disassembler) (v : DisplacementValue) (d1 : Disassembler),
       Disassembler.read_displacement d DisplacementLen.Word = .ok (v, d1) →
       d1.pos = d.pos + 2) ∧
    (∀ v : Nat,
       EffectiveAddress.to_string_with_displacement .DirectAddress (.Word v) =
         "[" ++ Nat.repr v ++ "]") ∧
    (∀ m < 256, m &&& 0b111 ≠ 0b110 →
       EffectiveAddress.from_with_mode m (.Memory .Byte) =
         EffectiveAddress.from_with_mode m (.Memory .None) ∧
       EffectiveAddress.from_with_mode m (.Memory .Word) =
         EffectiveAddress.from_with_mode m (.Memory .None)) := by
  refine ⟨by decide, ?_, fun v => rfl, by decide⟩
  intro d v d1 h
  unfold Disassembler.read_displacement at h
  cases h1 : d.read_word with
  | error e => rw [h1] at h; simp at h
  | ok p =>
      obtain ⟨w, da⟩ := p
      rw [h1] at h
      simp only [Except.ok.injEq, Prod.mk.injEq] at h
      obtain ⟨_, h2⟩ := h
      rw [← h2]
      exact (read_word_ok_state d w da h1).2

/-- Witness for C6 at ModRM byte 0b00000110 and a two-byte buffer. -/
theorem direct_address_forces_word_displacement_witness :
    (parse_mod_rm 0b00000110 false =
       .ok (.Memory .None,
            .EffectiveAddressCalculation .DirectAddress .Word) ∧
     parse_mod_rm 0b00000110 true =
       .ok (.Memory .None,
            .EffectiveAddressCalculation .DirectAddress .Word)) ∧
    Disassembler.pos { instructions_bin := [0x34, 0x12], pos := 2 } =
      Disassembler.pos { instructions_bin := [0x34, 0x12], pos := 0 } + 2 ∧
    EffectiveAddress.to_string_with_displacement .DirectAddress (.Word 4660) =
      "[" ++ Nat.repr 4660 ++ "]" ∧
    (EffectiveAddress.from_with_mode 0 (.Memory .Byte) =
       EffectiveAddress.from_with_mode 0 (.Memory .None) ∧
     EffectiveAddress.from_with_mode 0 (.Memory .Word) =
       EffectiveAddress.from_with_mode 0 (.Memory .None)) :=
  ⟨direct_address_forces_word_displacement.1 6 (by decide) (by decide),
   direct_address_forces_word_displacement.2.1 ⟨[0x34, 0x12], 0⟩
     (.Word 4660) ⟨[0x34, 0x12], 2⟩ (by decide),
   direct_address_forces_word_displacement.2.2.1 4660,
   direct_address_forces_word_displacement.2.2.2 0 (by decide) (by decide)⟩

/-- In register mode (top two ModRM bits set), `parse_mod_rm` resolves the
R/M field to a register. -/
theorem parse_mod_rm_register_mode (m : Nat) (wv : Bool) (rmVal : Register)
    (hmode : (m &&& 0b11000000) >>> 6 = 3)
    (hrm : Register.try_from_with_w m wv = .ok rmVal) :
    parse_mod_rm m wv = .ok (.Register, .Register rmVal) := by
  unfold parse_mod_rm Mode.try_from
  dsimp only
  rw [hmode]
  simp [bind, Except.bind, hrm]

/-- In register mode, `parse_mod_reg_rm` resolves both the register field
and the R/M register. -/
theorem parse_mod_reg_rm_register_mode (m : Nat) (wv : Bool)
    (regVal rmVal : Register)
    (hmode : (m &&& 0b11000000) >>> 6 = 3)
    (hreg : Register.try_from_with_w (m >>> 3) wv = .ok regVal)
    (hrm : Register.try_from_with_w m wv = .ok rmVal) :
    parse_mod_reg_rm m wv = .ok (.Register, regVal, .Register rmVal) := by
  unfold parse_mod_reg_rm
  simp only [bind, Except.bind, hreg, parse_mod_rm_register_mode m wv rmVal hmode hrm]

/-- C5: decoding [0b10001001, 0b11011001] yields exactly the one
operation `mov cx, bx` (destination CX, source BX) and the rendered text
"bits 16" plus the single line "mov cx, bx"; in general, in the
`ModRegRm` layout over a register-mode ModRM byte, a true direction bit
makes the register field the destination and a false one makes the
R/M-resolved operand the destination. -/
theorem mov_cx_bx_roundtrip_and_direction :
    ((Disassembler.new [0b10001001, 0b11011001]).decode_next_op =
       .ok (some (Operation.new .Mov (.Register .CX) (some (.Register .BX))),
            { instructions_bin := [0b10001001, 0b11011001], pos := 2 })) ∧
    (Disassembler.decode_next_op
       { instructions_bin := [0b10001001, 0b11011001], pos := 2 } =
       .ok (none, { instructions_bin := [0b10001001, 0b11011001], pos := 2 })) ∧
    ((Disassembler.new [0b10001001, 0b11011001]).decode =
       .ok "bits 16\n\nmov cx, bx") ∧
    (∀ (b m : Nat) (rest : List Nat) (ctx : OpcodeContext)
       (dv wv : Bool) (regVal rmVal : Register),
       OpcodeContext.try_from b = .ok ctx →
       ctx.next_field = .ModRegRm →
       ctx.mnemonic ≠ .NeedsNextByte →
       ctx.d = some dv →
       ctx.w = some wv →
       (m &&& 0b11000000) >>> 6 = 3 →
       Register.try_from_with_w (m >>> 3) wv = .ok regVal →
       Register.try_from_with_w m wv = .ok rmVal →
       (Disassembler.new (b :: m :: rest)).decode_next_op =
         .ok (some (Operation.new ctx.mnemonic
               (if dv then .Register regVal else .Register rmVal)
               (some (if dv then .Register rmVal else .Register regVal))),
             { instructions_bin := b :: m :: rest, pos := 2 })) := by
  refine ⟨by decide, by decide, by decide, ?_⟩
  intro b m rest ctx dv wv regVal rmVal htf hnf hmn hd hw hmode hreg hrm
  cases dv <;>
  simp [Disassembler.decode_next_op, Disassembler.new, Disassembler.read_next,
    Disassembler.read_expecting, Disassembler.rm_to_operand, List.get?,
    htf, hnf, hd, hw, hmn, Operation.new,
    parse_mod_reg_rm_register_mode m wv regVal rmVal hmode hreg hrm]

/-- Witness for C5's general direction-bit part at opcode 0b10001011
(direction bit set): the register field becomes the destination. -/
theorem mov_cx_bx_roundtrip_and_direction_witness :
    (Disassembler.new [0b10001011, 0b11011001, 5]).decode_next_op =
      .ok (some (Operation.new OpcodeMnemonic.Mov (.Register .BX)
             (some (.Register .CX))),
          { instructions_bin := [0b10001011, 0b11011001, 5], pos := 2 }) :=
  mov_cx_bx_roundtrip_and_direction.2.2.2 0b10001011 0b11011001 [5]
    { first_byte_raw := 0b10001011, mnemonic := .Mov, next_field := .ModRegRm,
      d := some true, w := some true, s := none, reg := none, has_data := false }
    true true .BX .CX (by decide) rfl (by decide) rfl rfl (by decide)
    (by decide) (by decide)

/-- C7: in the `ModOpcodeContRm` (opcode-extension) layout over a
register-mode ModRM byte, the immediate following the ModRM byte is one
byte when the sign bit is set together with the word flag, and otherwise
its size follows the word flag (two bytes when set, one when clear); the
operand stores the raw bytes read (`DataByte x`, or little-endian
`DataWord` of the two bytes) with no sign-extension arithmetic. -/
theorem opcode_extension_immediate_size :
    ∀ (b m x y : Nat) (rest : List Nat) (ctx : OpcodeContext)
      (mn : OpcodeMnemonic) (sv wv : Bool) (rmVal : Register),
      OpcodeContext.try_from b = .ok ctx →
      ctx.first_byte_raw = b →
      ctx.mnemonic = .NeedsNextByte →
      ctx.next_field = .ModOpcodeContRm →
      ctx.s = some sv →
      ctx.w = some wv →
      OpcodeMnemonic.with_mod_rm b m = .ok mn →
      (m &&& 0b11000000) >>> 6 = 3 →
      Register.try_from_with_w m wv = .ok rmVal →
      (Disassembler.new (b :: m :: x :: y :: rest)).decode_next_op =
        .ok (some (Operation.new mn (.Register rmVal)
              (some (if sv && wv then Operand.DataByte x
                     else if wv then Operand.DataWord (x + (y <<< 8))
                     else Operand.DataByte x))),
            { instructions_bin := b :: m :: x :: y :: rest,
              pos := if sv && wv then 3 else if wv then 4 else 3 }) := by
  intro b m x y rest ctx mn sv wv rmVal htf hfb hmn hnf hs hw hdis hmode hrm
  have hp := parse_mod_rm_register_mode m wv rmVal hmode hrm
  cases sv <;> cases wv <;>
  simp [Disassembler.decode_next_op, Disassembler.new, Disassembler.read_next,
    Disassembler.read_expecting, Disassembler.read_word, Disassembler.peek,
    Disassembler.rm_to_operand, OpcodeContext.with_next_byte, List.get?,
    htf, hfb, hmn, hnf, hs, hw, hdis, Operation.new, hp]

/-- Witness for C7 at opcode 0b10000011 (sign and word bits set) with a
register-mode ModRM byte selecting sub and CX: a single immediate byte
is read. -/
theorem opcode_extension_immediate_size_witness :
    (Disassembler.new [0b10000011, 0b11101001, 5, 9]).decode_next_op =
      .ok (some (Operation.new OpcodeMnemonic.Sub (.Register .CX)
             (some (Operand.DataByte 5))),
          { instructions_bin := [0b10000011, 0b11101001, 5, 9], pos := 3 }) :=
  opcode_extension_immediate_size 0b10000011 0b11101001 5 9 []
    { first_byte_raw := 0b10000011, mnemonic := .NeedsNextByte,
      next_field := .ModOpcodeContRm, d := none, w := some true,
      s := some true, reg := none, has_data := true }
    .Sub true true .CX (by decide) rfl rfl rfl rfl rfl (by decide)
    (by decide) (by decide)
